import Mathlib

/-
Shallow embedding of the `EncryptedWaterAllocator` Solidity contract
(src/unnamed/part_000): encrypted water-demand requests, asynchronous
oracle decryption with callback correlation, and a per-zone homomorphic
running total.

Modelling conventions:
* `euint32` ciphertext handles are modelled by their plaintext mirror
  `Option Nat`: `none` is the uninitialized (all-zero bytes32) handle,
  `some v` an initialized handle whose decryption is `v`.  The homomorphic
  capability (`FHE.add`, `FHE.asEuint32`, `FHE.isInitialized`,
  `FHE.toBytes32`) is mirrored accordingly; 32-bit arithmetic wraps
  modulo `2 ^ 32`.
* Solidity mappings are total functions returning the zero default.
* A reverting entry point is `Except String σ`: `Except.error` is a
  revert (the EVM rolls back every write of the call, so the caller's
  state is unchanged), `Except.ok` carries the post-state.
* Oracle-chosen values (the decryption request id handed back by
  `FHE.requestDecryption`, the cleartext bytes and the outcome of
  `FHE.checkSignatures`) are inputs of the embedded functions.
* `abi.decode(cleartexts, (uint32, uint32))` is modelled by a pair of
  naturals reduced modulo `2 ^ 32`.
-/

/-- The modulus of `uint32` / `euint32` arithmetic. -/
def MOD32 : Nat := 4294967296

/-- Plaintext mirror of an fhEVM `euint32` ciphertext handle. -/
abbrev Euint32 := Option Nat

namespace FHE

/-- `FHE.isInitialized`: the all-zero handle is uninitialized. -/
def isInitialized (h : Euint32) : Bool := h.isSome

/-- `FHE.asEuint32`: trivial encryption of a plaintext constant. -/
def asEuint32 (v : Nat) : Euint32 := some (v % MOD32)

/-- `FHE.add` on `euint32`: homomorphic addition modulo `2 ^ 32`.
All call sites in the contract pass two initialized handles. -/
def add : Euint32 → Euint32 → Euint32
  | some a, some b => some ((a + b) % MOD32)
  | _, _ => none

/-- `FHE.toBytes32`: serialization of a handle; the identity on mirrors. -/
def toBytes32 (h : Euint32) : Euint32 := h

end FHE

/-- Storage struct `EncryptedRequest`. -/
structure EncryptedRequest where
  id : Nat
  encryptedDemand : Euint32
  encryptedPriority : Euint32
  timestamp : Nat
deriving Repr, DecidableEq

/-- Storage struct `DecryptedRequest`. -/
structure DecryptedRequest where
  demand : Nat
  priority : Nat
  processed : Bool
deriving Repr, DecidableEq

/-- The contract's storage: `requestCount`, the three mappings and the
zone list.  Mappings are total functions with the Solidity zero default. -/
structure EncryptedWaterAllocator where
  requestCount : Nat
  encryptedRequests : Nat → EncryptedRequest
  decryptedRequests : Nat → DecryptedRequest
  encryptedAllocation : String → Euint32
  zoneList : List String
  requestToId : Nat → Nat

/-- Zero value of the `EncryptedRequest` struct (unwritten mapping slot). -/
def defaultEncryptedRequest : EncryptedRequest :=
  { id := 0, encryptedDemand := none, encryptedPriority := none, timestamp := 0 }

/-- Zero value of the `DecryptedRequest` struct (unwritten mapping slot). -/
def defaultDecryptedRequest : DecryptedRequest :=
  { demand := 0, priority := 0, processed := false }

/-- Freshly deployed contract: every storage slot at its zero value. -/
def initialState : EncryptedWaterAllocator :=
  { requestCount := 0
    encryptedRequests := fun _ => defaultEncryptedRequest
    decryptedRequests := fun _ => defaultDecryptedRequest
    encryptedAllocation := fun _ => none
    zoneList := []
    requestToId := fun _ => 0 }

/-- `submitEncryptedRequest`: increments `requestCount`, stores the new
`EncryptedRequest` under the new id together with a zeroed
`DecryptedRequest`.  Returns the post-state and the id carried by the
emitted `RequestSubmitted` event. -/
def submitEncryptedRequest (encryptedDemand encryptedPriority : Euint32) (ts : Nat)
    (s : EncryptedWaterAllocator) : EncryptedWaterAllocator × Nat :=
  let newId := s.requestCount + 1
  ({ s with
      requestCount := newId
      encryptedRequests := fun i =>
        if i = newId then
          { id := newId, encryptedDemand := encryptedDemand,
            encryptedPriority := encryptedPriority, timestamp := ts }
        else s.encryptedRequests i
      decryptedRequests := fun i =>
        if i = newId then { demand := 0, priority := 0, processed := false }
        else s.decryptedRequests i },
   newId)

/-- `requestDecryption(reqId)`: guarded only by
`require(!decryptedRequests[reqId].processed)` (the `onlyRequester`
modifier is an empty stub).  Forwards the two serialized ciphertexts to
the oracle and records `requestToId[decReqId] = reqId` for the
oracle-chosen `decReqId`.  Returns the post-state together with the
ciphertext batch handed to the oracle. -/
def requestDecryption (reqId : Nat) (decReqId : Nat) (s : EncryptedWaterAllocator) :
    Except String (EncryptedWaterAllocator × List Euint32) :=
  let req := s.encryptedRequests reqId
  if (s.decryptedRequests reqId).processed then
    Except.error "Already decrypted"
  else
    Except.ok
      ({ s with requestToId := fun i => if i = decReqId then reqId else s.requestToId i },
       [FHE.toBytes32 req.encryptedDemand, FHE.toBytes32 req.encryptedPriority])

/-- Internal `updateZoneAllocation`: lazily initializes the zone's
accumulator to `FHE.asEuint32 0` (registering the zone in `zoneList`),
then homomorphically adds `additional`. -/
def updateZoneAllocation (zone : String) (additional : Euint32)
    (s : EncryptedWaterAllocator) : EncryptedWaterAllocator :=
  let s1 :=
    if FHE.isInitialized (s.encryptedAllocation zone) then s
    else
      { s with
          encryptedAllocation := fun z =>
            if z = zone then FHE.asEuint32 0 else s.encryptedAllocation z
          zoneList := s.zoneList ++ [zone] }
  { s1 with
      encryptedAllocation := fun z =>
        if z = zone then FHE.add (s1.encryptedAllocation zone) additional
        else s1.encryptedAllocation z }

/-- Oracle callback `decryptRequest(decReqId, cleartexts, proof)`.
Checks, in source order: the correlation must resolve to a nonzero
request id; the target must not be processed yet; the proof must verify
(`FHE.checkSignatures`, outcome modelled by `proofOk`).  Only then does
it decode `(demand, priority)` as `uint32`s, mark the request processed
and merge the demand into the hard-coded zone `"main_zone"` (the source
casts the plaintext `demand` to a handle; on the mirror this is the
handle whose decryption is `demand`). -/
def decryptRequest (decReqId : Nat) (cleartexts : Nat × Nat) (proofOk : Bool)
    (s : EncryptedWaterAllocator) : Except String EncryptedWaterAllocator :=
  let reqId := s.requestToId decReqId
  if reqId = 0 then
    Except.error "Invalid request"
  else if (s.decryptedRequests reqId).processed then
    Except.error "Already decrypted"
  else if proofOk then
    let demand := cleartexts.1 % MOD32
    let priority := cleartexts.2 % MOD32
    let s1 :=
      { s with
          decryptedRequests := fun i =>
            if i = reqId then { demand := demand, priority := priority, processed := true }
            else s.decryptedRequests i }
    Except.ok (updateZoneAllocation "main_zone" (some demand) s1)
  else
    Except.error "Invalid proof"

/-- View `getDecryptedRequest(reqId)`: a pure mapping read, never reverts. -/
def getDecryptedRequest (reqId : Nat) (s : EncryptedWaterAllocator) :
    Nat × Nat × Bool :=
  let r := s.decryptedRequests reqId
  (r.demand, r.priority, r.processed)

/-- View `getEncryptedAllocation(zone)`: a pure mapping read, never reverts. -/
def getEncryptedAllocation (zone : String) (s : EncryptedWaterAllocator) : Euint32 :=
  s.encryptedAllocation zone

/-- `requestAllocationDecryption(zone)`: requires the zone's accumulator
to be initialized, forwards it to the oracle and correlates the
oracle-chosen callback id with the keccak hash of the zone name
(`hashZone` abstracts `bytes32ToUint(keccak256(abi.encodePacked(zone)))`). -/
def requestAllocationDecryption (hashZone : String → Nat) (zone : String)
    (decReqId : Nat) (s : EncryptedWaterAllocator) :
    Except String (EncryptedWaterAllocator × List Euint32) :=
  let count := s.encryptedAllocation zone
  if FHE.isInitialized count then
    Except.ok
      ({ s with requestToId := fun i => if i = decReqId then hashZone zone else s.requestToId i },
       [FHE.toBytes32 count])
  else
    Except.error "Zone not found"

/-- Private `getZoneFromHash`: linear scan of `zoneList` for the first
name whose hash matches; reverts "Zone not found" otherwise. -/
def getZoneFromHash (hashZone : String → Nat) (hash : Nat)
    (s : EncryptedWaterAllocator) : Except String String :=
  match s.zoneList.find? (fun z => hashZone z = hash) with
  | some z => Except.ok z
  | none => Except.error "Zone not found"

/-- Oracle callback `decryptAllocation`: reverse-maps the correlated
hash to a zone name, verifies the proof, decodes a `uint32` — and writes
nothing (dead code in the source). -/
def decryptAllocation (hashZone : String → Nat) (decReqId : Nat) (_cleartext : Nat)
    (proofOk : Bool) (s : EncryptedWaterAllocator) :
    Except String EncryptedWaterAllocator :=
  match getZoneFromHash hashZone (s.requestToId decReqId) s with
  | Except.error e => Except.error e
  | Except.ok _zone =>
      if proofOk then Except.ok s else Except.error "Invalid proof"

/-- Decryption of a mirror handle: the uninitialized handle decrypts to 0. -/
def decryptTotal : Euint32 → Nat
  | none => 0
  | some a => a

/-- The externally triggerable operations of the request lifecycle. -/
inductive Op where
  | submit (d p : Euint32) (ts : Nat)
  | reqDec (reqId decReqId : Nat)
  | resolve (decReqId : Nat) (cleartexts : Nat × Nat) (proofOk : Bool)
deriving Repr, DecidableEq

/-- One transaction under EVM semantics: a revert leaves the state unchanged. -/
def runOp : Op → EncryptedWaterAllocator → EncryptedWaterAllocator
  | Op.submit d p ts, s => (submitEncryptedRequest d p ts s).1
  | Op.reqDec r c, s =>
      match requestDecryption r c s with
      | Except.ok p => p.1
      | Except.error _ => s
  | Op.resolve c cl pOk, s =>
      match decryptRequest c cl pOk s with
      | Except.ok s1 => s1
      | Except.error _ => s

/-- Runs a trace of operations and collects, in order, the demand revealed
by each successful resolution (the plaintext mirror of the test harness). -/
def runTrace : List Op → EncryptedWaterAllocator → EncryptedWaterAllocator × List Nat
  | [], s => (s, [])
  | op :: rest, s =>
      let t := runTrace rest (runOp op s)
      match op with
      | Op.resolve c cl pOk =>
          match decryptRequest c cl pOk s with
          | Except.ok _ => (t.1, cl.1 % MOD32 :: t.2)
          | Except.error _ => t
      | _ => t

/-- Runs a list of submissions, collecting the assigned ids in order. -/
def submitAll : List (Euint32 × Euint32 × Nat) → EncryptedWaterAllocator →
    EncryptedWaterAllocator × List Nat
  | [], s => (s, [])
  | (d, p, ts) :: rest, s =>
      let r := submitEncryptedRequest d p ts s
      let t := submitAll rest r.1
      (t.1, r.2 :: t.2)

/-- Callback ids a trace ever passes to `requestDecryption`. -/
def regCallbacks : List Op → List Nat
  | [] => []
  | Op.reqDec _ c :: rest => c :: regCallbacks rest
  | _ :: rest => regCallbacks rest

/-- Request ids a trace ever targets with `requestDecryption`. -/
def reqDecTargets : List Op → List Nat
  | [] => []
  | Op.reqDec r _ :: rest => r :: reqDecTargets rest
  | _ :: rest => reqDecTargets rest

/-! ### Helper lemmas: submission -/

/-- A well-formed handle decrypts below the modulus. -/
lemma decryptTotal_lt_MOD32 (h : Euint32) (hg : ∀ a, h = some a → a < MOD32) :
    decryptTotal h < MOD32 := by
  cases h with
  | none => simp [decryptTotal, MOD32]
  | some a => exact hg a rfl

/-- The ids assigned by a run of submissions are consecutive from
`requestCount + 1`. -/
lemma submitAll_ids (subs : List (Euint32 × Euint32 × Nat)) :
    ∀ s : EncryptedWaterAllocator,
      (submitAll subs s).2 = List.range' (s.requestCount + 1) subs.length := by
  induction subs with
  | nil => intro s; simp [submitAll]
  | cons sub rest ih =>
      intro s
      obtain ⟨d, p, ts⟩ := sub
      simp only [submitAll, List.length_cons, List.range'_succ]
      refine congrArg (fun l => _ :: l) ?_
      have h := ih (submitEncryptedRequest d p ts s).1
      simpa [submitEncryptedRequest, Nat.add_assoc] using h

/-- Submissions keep every `DecryptedRequest` slot at its zero value. -/
lemma submitAll_decrypted (subs : List (Euint32 × Euint32 × Nat)) :
    ∀ s : EncryptedWaterAllocator,
      (∀ i, s.decryptedRequests i = defaultDecryptedRequest) →
      ∀ i, ((submitAll subs s).1).decryptedRequests i = defaultDecryptedRequest := by
  induction subs with
  | nil => intro s h i; simpa [submitAll] using h i
  | cons sub rest ih =>
      intro s h i
      obtain ⟨d, p, ts⟩ := sub
      simp only [submitAll]
      refine ih (submitEncryptedRequest d p ts s).1 ?_ i
      intro j
      simp only [submitEncryptedRequest]
      split
      · rfl
      · exact h j

/-! ### Claims C7, C2, C9 -/

/-- Claim C7 (confirmed): for every sequence of submissions, the ids
assigned are exactly `1, 2, 3, …` in submission order, and id `0` is
never issued. -/
theorem submit_ids_sequential (subs : List (Euint32 × Euint32 × Nat)) :
    (submitAll subs initialState).2 = List.range' 1 subs.length ∧
      0 ∉ (submitAll subs initialState).2 := by
  have h := submitAll_ids subs initialState
  have h0 : initialState.requestCount = 0 := rfl
  rw [h0] at h
  refine ⟨h, ?_⟩
  rw [h]
  simp [List.mem_range'_1]

/-- Claim C2 (corrected, amended): before any resolution,
`getDecryptedRequest` returns `(0, 0, false)` for every id — both for
ids that were submitted but not yet resolved and for ids that were never
issued; it is a pure mapping read and never fails. -/
theorem read_before_resolution (subs : List (Euint32 × Euint32 × Nat)) (reqId : Nat) :
    getDecryptedRequest reqId (submitAll subs initialState).1 = (0, 0, false) := by
  have h := submitAll_decrypted subs initialState (fun _ => rfl) reqId
  simp [getDecryptedRequest, h, defaultDecryptedRequest]

/-- Claim C2 (counterexample): id `5` was never issued (no submission has
happened), yet the read returns the zero tuple instead of failing with
`NotFound`. -/
theorem read_never_submitted_returns_zero :
    initialState.requestCount = 0 ∧ getDecryptedRequest 5 initialState = (0, 0, false) :=
  ⟨rfl, rfl⟩

/-- Claim C9 (corrected, amended): `getEncryptedAllocation` is a pure
mapping read that never fails: it returns the zone's current encrypted
running total, which after a contribution carries the accumulated sum
modulo `2 ^ 32`, and is the uninitialized handle — not a `ZoneNotFound`
failure — for a zone that was never initialized. -/
theorem getEncryptedAllocation_total_read :
    (∀ zone s, getEncryptedAllocation zone s = s.encryptedAllocation zone) ∧
    (∀ zone, getEncryptedAllocation zone initialState = none) ∧
    (∀ zone s v, getEncryptedAllocation zone (updateZoneAllocation zone (some v) s) =
      some ((decryptTotal (getEncryptedAllocation zone s) + v) % MOD32)) := by
  refine ⟨fun zone s => rfl, fun zone => rfl, fun zone s v => ?_⟩
  cases h : s.encryptedAllocation zone with
  | none =>
      simp [updateZoneAllocation, getEncryptedAllocation, FHE.isInitialized,
        FHE.asEuint32, FHE.add, h, decryptTotal, Nat.mod_self]
  | some a =>
      simp [updateZoneAllocation, getEncryptedAllocation, FHE.isInitialized,
        FHE.add, h, decryptTotal]

/-- Claim C9 (counterexample): on a fresh contract no zone was ever
initialized, yet `getEncryptedAllocation` returns the uninitialized
handle for the queried zone instead of failing with `ZoneNotFound`. -/
theorem getEncryptedAllocation_uninitialized_no_revert :
    initialState.zoneList = [] ∧
    getEncryptedAllocation "north_zone" initialState = none ∧
    FHE.isInitialized (getEncryptedAllocation "north_zone" initialState) = false :=
  ⟨rfl, rfl, rfl⟩

/-! ### Helper lemmas: `requestDecryption` and `decryptRequest` -/

/-- `requestDecryption` succeeds whenever the target is not yet processed,
writing exactly the correlation entry `decReqId ↦ reqId` (overwriting any
previous value of that slot) and forwarding the target's two handles. -/
lemma requestDecryption_ok (reqId decReqId : Nat) (s : EncryptedWaterAllocator)
    (h : (s.decryptedRequests reqId).processed = false) :
    requestDecryption reqId decReqId s =
      Except.ok
        ({ s with requestToId := fun i => if i = decReqId then reqId else s.requestToId i },
         [FHE.toBytes32 (s.encryptedRequests reqId).encryptedDemand,
          FHE.toBytes32 (s.encryptedRequests reqId).encryptedPriority]) := by
  simp [requestDecryption, h]

/-- `requestDecryption` fails iff the target is already processed. -/
lemma requestDecryption_err (reqId decReqId : Nat) (s : EncryptedWaterAllocator)
    (h : (s.decryptedRequests reqId).processed = true) :
    requestDecryption reqId decReqId s = Except.error "Already decrypted" := by
  simp [requestDecryption, h]

/-- `updateZoneAllocation` touches only the accumulator map and the zone list. -/
lemma updateZoneAllocation_frame (zone : String) (a : Euint32)
    (s : EncryptedWaterAllocator) :
    (updateZoneAllocation zone a s).requestCount = s.requestCount ∧
    (updateZoneAllocation zone a s).encryptedRequests = s.encryptedRequests ∧
    (updateZoneAllocation zone a s).decryptedRequests = s.decryptedRequests ∧
    (updateZoneAllocation zone a s).requestToId = s.requestToId := by
  unfold updateZoneAllocation
  split <;> exact ⟨rfl, rfl, rfl, rfl⟩

/-- The unregistered-callback guard: a callback id whose correlation slot
is `0` makes `decryptRequest` revert with "Invalid request". -/
lemma decryptRequest_err_unregistered (c : Nat) (cl : Nat × Nat) (pOk : Bool)
    (s : EncryptedWaterAllocator) (h : s.requestToId c = 0) :
    decryptRequest c cl pOk s = Except.error "Invalid request" := by
  simp [decryptRequest, h]

/-- The replay guard: a callback correlated to an already-processed
request makes `decryptRequest` revert with "Already decrypted". -/
lemma decryptRequest_err_processed (c : Nat) (cl : Nat × Nat) (pOk : Bool)
    (s : EncryptedWaterAllocator) (h0 : s.requestToId c ≠ 0)
    (h1 : (s.decryptedRequests (s.requestToId c)).processed = true) :
    decryptRequest c cl pOk s = Except.error "Already decrypted" := by
  simp [decryptRequest, h0, h1]

/-- The proof guard: with the other checks passing, a rejected proof
makes `decryptRequest` revert with "Invalid proof". -/
lemma decryptRequest_err_proof (c : Nat) (cl : Nat × Nat)
    (s : EncryptedWaterAllocator) (h0 : s.requestToId c ≠ 0)
    (h1 : (s.decryptedRequests (s.requestToId c)).processed = false) :
    decryptRequest c cl false s = Except.error "Invalid proof" := by
  simp [decryptRequest, h0, h1]

/-- Successful resolution, explicitly: all three guards pass and the
post-state stores the decoded plaintexts, marks the target processed and
merges the demand into `"main_zone"`. -/
lemma decryptRequest_ok (c : Nat) (cl : Nat × Nat) (s : EncryptedWaterAllocator)
    (h0 : s.requestToId c ≠ 0)
    (h1 : (s.decryptedRequests (s.requestToId c)).processed = false) :
    decryptRequest c cl true s =
      Except.ok (updateZoneAllocation "main_zone" (some (cl.1 % MOD32))
        { s with
            decryptedRequests := fun i =>
              if i = s.requestToId c then
                { demand := cl.1 % MOD32, priority := cl.2 % MOD32, processed := true }
              else s.decryptedRequests i }) := by
  simp [decryptRequest, h0, h1]

/-- Inversion of a successful resolution: the guards held and the
post-state is the explicit one. -/
lemma decryptRequest_ok_inv (c : Nat) (cl : Nat × Nat) (pOk : Bool)
    (s s1 : EncryptedWaterAllocator)
    (h : decryptRequest c cl pOk s = Except.ok s1) :
    s.requestToId c ≠ 0 ∧
    (s.decryptedRequests (s.requestToId c)).processed = false ∧
    pOk = true ∧
    s1 = updateZoneAllocation "main_zone" (some (cl.1 % MOD32))
      { s with
          decryptedRequests := fun i =>
            if i = s.requestToId c then
              { demand := cl.1 % MOD32, priority := cl.2 % MOD32, processed := true }
            else s.decryptedRequests i } := by
  by_cases h0 : s.requestToId c = 0
  · rw [decryptRequest_err_unregistered c cl pOk s h0] at h
    exact absurd h (by simp)
  · by_cases h1 : (s.decryptedRequests (s.requestToId c)).processed = true
    · rw [decryptRequest_err_processed c cl pOk s h0 h1] at h
      exact absurd h (by simp)
    · have h1f : (s.decryptedRequests (s.requestToId c)).processed = false := by
        simpa using h1
      cases pOk with
      | false =>
          rw [decryptRequest_err_proof c cl s h0 h1f] at h
          exact absurd h (by simp)
      | true =>
          rw [decryptRequest_ok c cl s h0 h1f] at h
          refine ⟨h0, h1f, rfl, ?_⟩
          injection h with h2
          exact h2.symm

/-- A successful resolution does not change the correlation table, the
request counter or the encrypted requests, and it marks its target
processed. -/
lemma decryptRequest_ok_frame (c : Nat) (cl : Nat × Nat) (pOk : Bool)
    (s s1 : EncryptedWaterAllocator)
    (h : decryptRequest c cl pOk s = Except.ok s1) :
    s1.requestToId = s.requestToId ∧
    s1.requestCount = s.requestCount ∧
    s1.encryptedRequests = s.encryptedRequests ∧
    (s1.decryptedRequests (s.requestToId c)).processed = true := by
  obtain ⟨h0, h1, hp, hs⟩ := decryptRequest_ok_inv c cl pOk s s1 h
  subst hs
  obtain ⟨f1, f2, f3, f4⟩ := updateZoneAllocation_frame "main_zone" (some (cl.1 % MOD32))
    { s with
        decryptedRequests := fun i =>
          if i = s.requestToId c then
            { demand := cl.1 % MOD32, priority := cl.2 % MOD32, processed := true }
          else s.decryptedRequests i }
  refine ⟨f4, f1, f2, ?_⟩
  rw [f3]
  simp

/-! ### Concrete scenario states -/

/-- One request submitted: demand handle `some 5`, priority handle `some 2`. -/
def stOneSubmitted : EncryptedWaterAllocator :=
  (submitEncryptedRequest (some 5) (some 2) 0 initialState).1

/-- Decryption of request 1 requested; the oracle chose callback id 7. -/
def stInFlight : EncryptedWaterAllocator := runOp (Op.reqDec 1 7) stOneSubmitted

/-- Callback 7 resolved with cleartexts `(5, 2)` and an accepted proof. -/
def stResolved : EncryptedWaterAllocator := runOp (Op.resolve 7 (5, 2) true) stInFlight

/-- A second decryption request for request 1 while callback 7 is still
outstanding; the oracle chose callback id 9. -/
def stTwoFlight : EncryptedWaterAllocator := runOp (Op.reqDec 1 9) stInFlight

/-- A second request submitted on top of `stOneSubmitted`. -/
def stTwoSubmitted : EncryptedWaterAllocator :=
  (submitEncryptedRequest (some 3) (some 1) 0 stOneSubmitted).1

/-- Two requests submitted, then decryption of request 1 under callback 7. -/
def stC : EncryptedWaterAllocator := runOp (Op.reqDec 1 7) stTwoSubmitted

/-- …then decryption of request 2 under the same callback id 7. -/
def stD : EncryptedWaterAllocator := runOp (Op.reqDec 2 7) stC

/-! ### Claims C3, C6 -/

/-- Claim C3 (corrected, amended): registering a correlation never checks
for duplicates: when the target request is not yet processed,
`requestDecryption` succeeds even if the callback id is already present
in the correlation table, and the plain assignment
`requestToId[decReqId] = reqId` overwrites the existing entry; no
`DuplicateCallback` failure exists. -/
theorem registration_overwrites (reqId decReqId : Nat) (s : EncryptedWaterAllocator)
    (h : (s.decryptedRequests reqId).processed = false)
    (_hdup : s.requestToId decReqId ≠ 0) :
    requestDecryption reqId decReqId s =
      Except.ok
        ({ s with requestToId := fun i => if i = decReqId then reqId else s.requestToId i },
         [FHE.toBytes32 (s.encryptedRequests reqId).encryptedDemand,
          FHE.toBytes32 (s.encryptedRequests reqId).encryptedPriority]) :=
  requestDecryption_ok reqId decReqId s h

/-- Claim C3 (witness): callback 7 is registered for request 1; a second
registration of callback 7, now for request 2, succeeds and overwrites. -/
theorem registration_overwrites_witness :
    requestDecryption 2 7 stC = Except.ok (stD, [some 3, some 1]) :=
  registration_overwrites 2 7 stC rfl (by decide)

/-- Claim C3 (counterexample): after two submissions, callback id 7 is
registered for request 1; registering the same callback id again — for
request 2 — does not fail with `DuplicateCallback`: it succeeds and the
entry now maps to request 2. -/
theorem registration_no_duplicate_check :
    stC.requestToId 7 = 1 ∧
    requestDecryption 2 7 stC = Except.ok (stD, [some 3, some 1]) ∧
    stD.requestToId 7 = 2 :=
  ⟨rfl, rfl, rfl⟩

/-- Claim C6 (corrected, amended): `requestDecryption` checks only the
`processed` flag, which stays `false` during the whole in-flight window;
hence a second `requestDecryption` for the same request before the first
callback resolves is accepted and registers a second outstanding
correlation, and the call is rejected only once the request is resolved. -/
theorem requestDecryption_inflight_guard (reqId decReqId : Nat)
    (s : EncryptedWaterAllocator) :
    ((s.decryptedRequests reqId).processed = false →
      requestDecryption reqId decReqId s =
        Except.ok
          ({ s with requestToId := fun i => if i = decReqId then reqId else s.requestToId i },
           [FHE.toBytes32 (s.encryptedRequests reqId).encryptedDemand,
            FHE.toBytes32 (s.encryptedRequests reqId).encryptedPriority])) ∧
    ((s.decryptedRequests reqId).processed = true →
      requestDecryption reqId decReqId s = Except.error "Already decrypted") :=
  ⟨fun h => requestDecryption_ok reqId decReqId s h,
   fun h => requestDecryption_err reqId decReqId s h⟩

/-- Claim C6 (witness): the second in-flight request for request 1 is
accepted; only after resolution is a further request rejected. -/
theorem requestDecryption_inflight_guard_witness :
    requestDecryption 1 9 stInFlight = Except.ok (stTwoFlight, [some 5, some 2]) ∧
    requestDecryption 1 11 stResolved = Except.error "Already decrypted" :=
  ⟨(requestDecryption_inflight_guard 1 9 stInFlight).1 rfl,
   (requestDecryption_inflight_guard 1 11 stResolved).2 rfl⟩

/-- Claim C6 (counterexample): request 1 is in flight under callback 7
and not yet resolved, yet a second `requestDecryption(1)` succeeds and
leaves two outstanding callbacks (7 and 9) for the same target. -/
theorem second_inflight_request_accepted :
    (stInFlight.decryptedRequests 1).processed = false ∧
    stInFlight.requestToId 7 = 1 ∧
    requestDecryption 1 9 stInFlight = Except.ok (stTwoFlight, [some 5, some 2]) ∧
    stTwoFlight.requestToId 7 = 1 ∧
    stTwoFlight.requestToId 9 = 1 :=
  ⟨rfl, rfl, rfl, rfl, rfl⟩

/-! ### Claims C5, C4 -/

/-- Claim C5 (confirmed): in `decryptRequest` every precondition check
precedes every state write: with a rejected proof the call reverts (as it
does on any failed precondition), a reverted transaction leaves the state
— in particular the target's `DecryptedRequest` — exactly unchanged, and
conversely a successful call implies the proof was accepted. -/
theorem resolution_checks_precede_writes (c : Nat) (cl : Nat × Nat)
    (s : EncryptedWaterAllocator) :
    ((∃ e, decryptRequest c cl false s = Except.error e) ∧
      runOp (Op.resolve c cl false) s = s) ∧
    (∀ pOk s1, decryptRequest c cl pOk s = Except.ok s1 → pOk = true) := by
  have herr : ∃ e, decryptRequest c cl false s = Except.error e := by
    by_cases h0 : s.requestToId c = 0
    · exact ⟨_, decryptRequest_err_unregistered c cl false s h0⟩
    · by_cases h1 : (s.decryptedRequests (s.requestToId c)).processed = true
      · exact ⟨_, decryptRequest_err_processed c cl false s h0 h1⟩
      · exact ⟨_, decryptRequest_err_proof c cl s h0 (by simpa using h1)⟩
  obtain ⟨e, he⟩ := herr
  refine ⟨⟨⟨e, he⟩, ?_⟩, ?_⟩
  · simp [runOp, he]
  · intro pOk s1 h
    exact (decryptRequest_ok_inv c cl pOk s s1 h).2.2.1

/-- Claim C5 (witness): on the in-flight state, resolving callback 7 with
a rejected proof reverts at the proof check and mutates nothing, while
the successful resolution used an accepted proof. -/
theorem resolution_checks_precede_writes_witness :
    decryptRequest 7 (5, 2) false stInFlight = Except.error "Invalid proof" ∧
    runOp (Op.resolve 7 (5, 2) false) stInFlight = stInFlight ∧
    true = true :=
  ⟨rfl, (resolution_checks_precede_writes 7 (5, 2) stInFlight).1.2,
   (resolution_checks_precede_writes 7 (5, 2) stInFlight).2 true stResolved rfl⟩

/-- Claim C4 (confirmed): `processed` flips `false → true` at most once:
after a successful resolution, any second resolution attempt for the same
request — a replay of the same callback or another callback correlated to
the same request — reverts with the `AlreadyProcessed` guard ("Already
decrypted"), and under revert semantics the state after the failed second
attempt equals the state after the first successful resolution. -/
theorem no_double_resolution (c : Nat) (cl : Nat × Nat) (pOk : Bool)
    (s s1 : EncryptedWaterAllocator)
    (h : decryptRequest c cl pOk s = Except.ok s1)
    (c2 : Nat) (cl2 : Nat × Nat) (pOk2 : Bool)
    (hsame : s.requestToId c2 = s.requestToId c) :
    decryptRequest c2 cl2 pOk2 s1 = Except.error "Already decrypted" ∧
    runOp (Op.resolve c2 cl2 pOk2) s1 = s1 := by
  obtain ⟨hr, _, _, hp⟩ := decryptRequest_ok_frame c cl pOk s s1 h
  have h0 : s.requestToId c ≠ 0 := (decryptRequest_ok_inv c cl pOk s s1 h).1
  have he : decryptRequest c2 cl2 pOk2 s1 = Except.error "Already decrypted" := by
    apply decryptRequest_err_processed
    · rw [hr, hsame]; exact h0
    · rw [hr, hsame]; exact hp
  exact ⟨he, by simp [runOp, he]⟩

/-- Claim C4 (witness): replaying callback 7 after its successful
resolution fails with the `AlreadyProcessed` guard and changes nothing. -/
theorem no_double_resolution_witness :
    decryptRequest 7 (9, 9) true stResolved = Except.error "Already decrypted" ∧
    runOp (Op.resolve 7 (9, 9) true) stResolved = stResolved :=
  no_double_resolution 7 (5, 2) true stInFlight stResolved rfl 7 (9, 9) true rfl

/-! ### Helper lemmas: traces -/

/-- Inversion of a successful `requestDecryption`: the guard held and the
post-state only rewrites the correlation slot of the chosen callback id. -/
lemma requestDecryption_ok_inv (reqId decReqId : Nat) (s : EncryptedWaterAllocator)
    (p : EncryptedWaterAllocator × List Euint32)
    (h : requestDecryption reqId decReqId s = Except.ok p) :
    (s.decryptedRequests reqId).processed = false ∧
    p.1 = { s with requestToId := fun i => if i = decReqId then reqId else s.requestToId i } := by
  by_cases hp : (s.decryptedRequests reqId).processed = true
  · rw [requestDecryption_err reqId decReqId s hp] at h
    exact absurd h (by simp)
  · have hf : (s.decryptedRequests reqId).processed = false := by simpa using hp
    rw [requestDecryption_ok reqId decReqId s hf] at h
    injection h with h2
    exact ⟨hf, by rw [← h2]⟩

/-- The head of a trace only affects the final state through `runOp`. -/
lemma runTrace_cons_fst (op : Op) (rest : List Op) (s : EncryptedWaterAllocator) :
    (runTrace (op :: rest) s).1 = (runTrace rest (runOp op s)).1 := by
  cases op with
  | submit d p ts => rfl
  | reqDec r c => rfl
  | resolve c cl pOk =>
      cases h : decryptRequest c cl pOk s <;> simp [runTrace, runOp, h]

/-- A submission does not touch correlations or the accumulator. -/
lemma runOp_submit_frame (d p : Euint32) (ts : Nat) (s : EncryptedWaterAllocator) :
    (runOp (Op.submit d p ts) s).requestToId = s.requestToId ∧
    (runOp (Op.submit d p ts) s).encryptedAllocation = s.encryptedAllocation ∧
    (runOp (Op.submit d p ts) s).requestCount = s.requestCount + 1 :=
  ⟨rfl, rfl, rfl⟩

/-- A `requestDecryption` transaction (succeeding or reverting) touches
only the correlation table. -/
lemma runOp_reqDec_frame (reqId decReqId : Nat) (s : EncryptedWaterAllocator) :
    (runOp (Op.reqDec reqId decReqId) s).requestCount = s.requestCount ∧
    (runOp (Op.reqDec reqId decReqId) s).encryptedRequests = s.encryptedRequests ∧
    (runOp (Op.reqDec reqId decReqId) s).decryptedRequests = s.decryptedRequests ∧
    (runOp (Op.reqDec reqId decReqId) s).encryptedAllocation = s.encryptedAllocation := by
  cases h : requestDecryption reqId decReqId s with
  | ok p =>
      obtain ⟨-, hp⟩ := requestDecryption_ok_inv reqId decReqId s p h
      simp [runOp, h, hp]
  | error e => simp [runOp, h]

/-- A `requestDecryption` transaction leaves every other correlation slot
unchanged. -/
lemma runOp_reqDec_requestToId (reqId decReqId : Nat) (s : EncryptedWaterAllocator)
    (i : Nat) (hne : i ≠ decReqId) :
    (runOp (Op.reqDec reqId decReqId) s).requestToId i = s.requestToId i := by
  cases h : requestDecryption reqId decReqId s with
  | ok p =>
      obtain ⟨-, hp⟩ := requestDecryption_ok_inv reqId decReqId s p h
      simp only [runOp, h, hp]
      simp [hne]
  | error e => simp only [runOp, h]

/-- A resolution transaction (succeeding or reverting) never touches the
correlation table, the request counter or the encrypted requests. -/
lemma runOp_resolve_frame (c : Nat) (cl : Nat × Nat) (pOk : Bool)
    (s : EncryptedWaterAllocator) :
    (runOp (Op.resolve c cl pOk) s).requestToId = s.requestToId ∧
    (runOp (Op.resolve c cl pOk) s).requestCount = s.requestCount ∧
    (runOp (Op.resolve c cl pOk) s).encryptedRequests = s.encryptedRequests := by
  cases h : decryptRequest c cl pOk s with
  | ok s1 =>
      obtain ⟨h1, h2, h3, -⟩ := decryptRequest_ok_frame c cl pOk s s1 h
      simp [runOp, h, h1, h2, h3]
  | error e => simp [runOp, h]

/-- Contributing `some v` to a zone leaves its accumulator at the previous
decrypted total plus `v`, modulo `2 ^ 32`. -/
lemma updateZoneAllocation_total (zone : String) (v : Nat)
    (s : EncryptedWaterAllocator) :
    (updateZoneAllocation zone (some v) s).encryptedAllocation zone =
      some ((decryptTotal (s.encryptedAllocation zone) + v) % MOD32) := by
  cases h : s.encryptedAllocation zone with
  | none =>
      simp [updateZoneAllocation, FHE.isInitialized, FHE.asEuint32, FHE.add, h,
        decryptTotal, Nat.mod_self]
  | some a =>
      simp [updateZoneAllocation, FHE.isInitialized, FHE.add, h, decryptTotal]

/-- `requestCount` never decreases along a transaction. -/
lemma runOp_requestCount_le (op : Op) (s : EncryptedWaterAllocator) :
    s.requestCount ≤ (runOp op s).requestCount := by
  cases op with
  | submit d p ts => exact Nat.le_of_lt (Nat.lt_succ_self _)
  | reqDec r c => rw [(runOp_reqDec_frame r c s).1]
  | resolve c cl pOk => rw [(runOp_resolve_frame c cl pOk s).2.1]

/-- `requestCount` never decreases along a trace. -/
lemma runTrace_requestCount_le (ops : List Op) :
    ∀ s : EncryptedWaterAllocator,
      s.requestCount ≤ ((runTrace ops s).1).requestCount := by
  induction ops with
  | nil => intro s; exact Nat.le_refl _
  | cons op rest ih =>
      intro s
      rw [runTrace_cons_fst]
      exact Nat.le_trans (runOp_requestCount_le op s) (ih (runOp op s))

/-- A callback id that no trace operation ever registers keeps its
correlation slot at the zero sentinel. -/
lemma runTrace_unregistered (ops : List Op) :
    ∀ s c, c ∉ regCallbacks ops → s.requestToId c = 0 →
      ((runTrace ops s).1).requestToId c = 0 := by
  induction ops with
  | nil => intro s c _ h0; exact h0
  | cons op rest ih =>
      intro s c hc h0
      rw [runTrace_cons_fst]
      cases op with
      | submit d p ts =>
          refine ih _ c (by simpa [regCallbacks] using hc) ?_
          rw [(runOp_submit_frame d p ts s).1]
          exact h0
      | reqDec r c2 =>
          have hcc : c ≠ c2 ∧ c ∉ regCallbacks rest := by
            simpa [regCallbacks] using hc
          refine ih _ c hcc.2 ?_
          rw [runOp_reqDec_requestToId r c2 s c hcc.1]
          exact h0
      | resolve c2 cl pOk =>
          refine ih _ c (by simpa [regCallbacks] using hc) ?_
          rw [(runOp_resolve_frame c2 cl pOk s).1]
          exact h0

/-- An id beyond the final `requestCount` (or 0) keeps its default
`EncryptedRequest` slot along the whole trace. -/
lemma runTrace_unissued_default (ops : List Op) :
    ∀ (s : EncryptedWaterAllocator) (r : Nat),
      (r = 0 ∨ ((runTrace ops s).1).requestCount < r) →
      s.encryptedRequests r = defaultEncryptedRequest →
      ((runTrace ops s).1).encryptedRequests r = defaultEncryptedRequest := by
  induction ops with
  | nil => intro s r _ h; exact h
  | cons op rest ih =>
      intro s r hr h
      rw [runTrace_cons_fst] at hr ⊢
      refine ih (runOp op s) r hr ?_
      cases op with
      | submit d p ts =>
          have hne : r ≠ s.requestCount + 1 := by
            rcases hr with hr0 | hrlt
            · subst hr0; exact fun hc => by omega
            · have hmono := runTrace_requestCount_le rest (runOp (Op.submit d p ts) s)
              have hcnt : (runOp (Op.submit d p ts) s).requestCount = s.requestCount + 1 :=
                (runOp_submit_frame d p ts s).2.2
              omega
          simp only [runOp, submitEncryptedRequest]
          simp only [hne, if_false]
          exact h
      | reqDec r2 c2 =>
          rw [(runOp_reqDec_frame r2 c2 s).2.1]
          exact h
      | resolve c2 cl pOk =>
          rw [(runOp_resolve_frame c2 cl pOk s).2.2]
          exact h

/-- An id that is 0, or that no trace operation ever targets with
`requestDecryption`, keeps `processed = false` and is never the value of
a correlation slot. -/
lemma runTrace_untargeted_unprocessed (ops : List Op) :
    ∀ (s : EncryptedWaterAllocator) (r : Nat),
      (r = 0 ∨ r ∉ reqDecTargets ops) →
      (s.decryptedRequests r).processed = false →
      (r = 0 ∨ ∀ c, s.requestToId c ≠ r) →
      (((runTrace ops s).1).decryptedRequests r).processed = false ∧
      (r = 0 ∨ ∀ c, ((runTrace ops s).1).requestToId c ≠ r) := by
  induction ops with
  | nil => intro s r _ hp hc; exact ⟨hp, hc⟩
  | cons op rest ih =>
      intro s r hr hp hc
      rw [runTrace_cons_fst]
      cases op with
      | submit d p ts =>
          refine ih (runOp (Op.submit d p ts) s) r ?_ ?_ ?_
          · rcases hr with hr0 | hrm
            · exact Or.inl hr0
            · exact Or.inr (by simpa [reqDecTargets] using hrm)
          · simp only [runOp, submitEncryptedRequest]
            split
            · rfl
            · exact hp
          · rw [(runOp_submit_frame d p ts s).1]
            exact hc
      | reqDec r2 c2 =>
          have hr2 : r = 0 ∨ (r2 ≠ r ∧ r ∉ reqDecTargets rest) := by
            rcases hr with hr0 | hrm
            · exact Or.inl hr0
            · right
              have := (by simpa [reqDecTargets] using hrm : ¬r = r2 ∧ r ∉ reqDecTargets rest)
              exact ⟨fun hcc => this.1 hcc.symm, this.2⟩
          refine ih (runOp (Op.reqDec r2 c2) s) r ?_ ?_ ?_
          · rcases hr2 with hr0 | hrr
            · exact Or.inl hr0
            · exact Or.inr hrr.2
          · rw [(runOp_reqDec_frame r2 c2 s).2.2.1]
            exact hp
          · rcases hr2 with hr0 | hrr
            · exact Or.inl hr0
            · rcases hc with hc0 | hcall
              · exact Or.inl hc0
              · right
                intro c
                cases h : requestDecryption r2 c2 s with
                | ok p =>
                    obtain ⟨-, hpp⟩ := requestDecryption_ok_inv r2 c2 s p h
                    simp only [runOp, h, hpp]
                    by_cases hcc : c = c2
                    · simpa [hcc] using hrr.1
                    · simpa [hcc] using hcall c
                | error e =>
                    simp only [runOp, h]
                    exact hcall c
      | resolve c2 cl pOk =>
          have hrn : r = 0 ∨ reqDecTargets (Op.resolve c2 cl pOk :: rest) = reqDecTargets rest := by
            exact Or.inr rfl
          refine ih (runOp (Op.resolve c2 cl pOk) s) r ?_ ?_ ?_
          · rcases hr with hr0 | hrm
            · exact Or.inl hr0
            · exact Or.inr (by simpa [reqDecTargets] using hrm)
          · cases h : decryptRequest c2 cl pOk s with
            | ok s1 =>
                obtain ⟨h0, h1, hpok, hs1⟩ := decryptRequest_ok_inv c2 cl pOk s s1 h
                have hdr : s1.decryptedRequests =
                    fun i => if i = s.requestToId c2 then
                      { demand := cl.1 % MOD32, priority := cl.2 % MOD32, processed := true }
                    else s.decryptedRequests i := by
                  rw [hs1]
                  exact (updateZoneAllocation_frame "main_zone" (some (cl.1 % MOD32)) _).2.2.1
                have hne : r ≠ s.requestToId c2 := by
                  rcases hc with hc0 | hcall
                  · subst hc0; exact fun hcc => h0 hcc.symm
                  · exact fun hcc => hcall c2 hcc.symm
                simp only [runOp, h, hdr]
                simp only [hne, if_false]
                exact hp
            | error e =>
                simp only [runOp, h]
                exact hp
          · rw [(runOp_resolve_frame c2 cl pOk s).1]
            exact hc

/-- Main accumulator invariant: along any trace, the decrypted total of
`"main_zone"` advances from its starting value by the sum of the demands
revealed by the successful resolutions, modulo `2 ^ 32`. -/
lemma runTrace_zone_total (ops : List Op) :
    ∀ s : EncryptedWaterAllocator,
      (∀ a, s.encryptedAllocation "main_zone" = some a → a < MOD32) →
      decryptTotal (((runTrace ops s).1).encryptedAllocation "main_zone") =
        (decryptTotal (s.encryptedAllocation "main_zone") + ((runTrace ops s).2).sum) % MOD32 := by
  induction ops with
  | nil =>
      intro s hg
      simp only [runTrace, List.sum_nil, Nat.add_zero]
      exact (Nat.mod_eq_of_lt (decryptTotal_lt_MOD32 _ hg)).symm
  | cons op rest ih =>
      intro s hg
      cases op with
      | submit d p ts =>
          have hs : (runOp (Op.submit d p ts) s).encryptedAllocation = s.encryptedAllocation :=
            (runOp_submit_frame d p ts s).2.1
          have h2 : runTrace (Op.submit d p ts :: rest) s =
              runTrace rest (runOp (Op.submit d p ts) s) := rfl
          rw [h2, ih (runOp (Op.submit d p ts) s) (by rw [hs]; exact hg), hs]
      | reqDec r c =>
          have hs : (runOp (Op.reqDec r c) s).encryptedAllocation = s.encryptedAllocation :=
            (runOp_reqDec_frame r c s).2.2.2
          have h2 : runTrace (Op.reqDec r c :: rest) s =
              runTrace rest (runOp (Op.reqDec r c) s) := rfl
          rw [h2, ih (runOp (Op.reqDec r c) s) (by rw [hs]; exact hg), hs]
      | resolve c cl pOk =>
          cases h : decryptRequest c cl pOk s with
          | error e =>
              have hro : runOp (Op.resolve c cl pOk) s = s := by simp [runOp, h]
              have h2 : runTrace (Op.resolve c cl pOk :: rest) s = runTrace rest s := by
                simp [runTrace, h, hro]
              rw [h2, ih s hg]
          | ok s1 =>
              have hro : runOp (Op.resolve c cl pOk) s = s1 := by simp [runOp, h]
              have h2a : (runTrace (Op.resolve c cl pOk :: rest) s).1 = (runTrace rest s1).1 := by
                simp [runTrace, h, hro]
              have h2b : (runTrace (Op.resolve c cl pOk :: rest) s).2 =
                  cl.1 % MOD32 :: (runTrace rest s1).2 := by
                simp [runTrace, h, hro]
              obtain ⟨h0, h1, hpok, hs1⟩ := decryptRequest_ok_inv c cl pOk s s1 h
              have hmz : s1.encryptedAllocation "main_zone" =
                  some ((decryptTotal (s.encryptedAllocation "main_zone") + cl.1 % MOD32) % MOD32) := by
                rw [hs1, updateZoneAllocation_total]
              have hgood : ∀ a, s1.encryptedAllocation "main_zone" = some a → a < MOD32 := by
                intro a ha
                rw [hmz] at ha
                injection ha with ha2
                rw [← ha2]
                exact Nat.mod_lt _ (by decide)
              rw [h2a, h2b, List.sum_cons, ih s1 hgood, hmz]
              simp only [decryptTotal]
              rw [Nat.mod_add_mod, Nat.add_assoc]

/-! ### Claims C8, C10, C1 -/

/-- Claim C8 (confirmed): resolving with a callback id that was never
registered by any `requestDecryption` of the trace always reverts with
"Invalid request" (`InvalidRequest`): the correlation slot is still the
zero sentinel, the first guard fires, and the reverted transaction leaves
every part of the state unchanged. -/
theorem unregistered_callback_rejected (ops : List Op) (c : Nat) (cl : Nat × Nat)
    (pOk : Bool) (hc : c ∉ regCallbacks ops) :
    decryptRequest c cl pOk (runTrace ops initialState).1 = Except.error "Invalid request" ∧
    runOp (Op.resolve c cl pOk) (runTrace ops initialState).1 = (runTrace ops initialState).1 := by
  have h0 := runTrace_unregistered ops initialState c hc rfl
  have he := decryptRequest_err_unregistered c cl pOk _ h0
  exact ⟨he, by simp [runOp, he]⟩

/-- Claim C8 (witness): after one submission, callback id 5 was never
registered; resolving it fails and changes nothing. -/
theorem unregistered_callback_rejected_witness :
    decryptRequest 5 (1, 1) true (runTrace [Op.submit (some 4) (some 4) 0] initialState).1 =
      Except.error "Invalid request" ∧
    runOp (Op.resolve 5 (1, 1) true) (runTrace [Op.submit (some 4) (some 4) 0] initialState).1 =
      (runTrace [Op.submit (some 4) (some 4) 0] initialState).1 :=
  unregistered_callback_rejected [Op.submit (some 4) (some 4) 0] 5 (1, 1) true (by decide)

/-- Claim C10 (confirmed): calling `requestDecryption` on a request id
never issued by any submission of the trace (including id 0) — and not
previously targeted by a `requestDecryption` — does not fail: the
nonexistent entry's `processed` flag is at its default `false`, so the
guard passes, the two uninitialized ciphertext handles of the default
entry are forwarded to the oracle, and a correlation for the nonexistent
request is registered. -/
theorem requestDecryption_nonexistent_id (ops : List Op) (r c : Nat)
    (hr : r = 0 ∨ r ∉ reqDecTargets ops)
    (hn : r = 0 ∨ ((runTrace ops initialState).1).requestCount < r) :
    ((runTrace ops initialState).1).encryptedRequests r = defaultEncryptedRequest ∧
    (((runTrace ops initialState).1).decryptedRequests r).processed = false ∧
    requestDecryption r c (runTrace ops initialState).1 =
      Except.ok
        ({ (runTrace ops initialState).1 with
            requestToId := fun i =>
              if i = c then r else ((runTrace ops initialState).1).requestToId i },
         [none, none]) := by
  have hdef := runTrace_unissued_default ops initialState r hn rfl
  have hinit : r = 0 ∨ ∀ c2, initialState.requestToId c2 ≠ r := by
    by_cases h0 : r = 0
    · exact Or.inl h0
    · exact Or.inr fun c2 hc2 => h0 hc2.symm
  have hinv := runTrace_untargeted_unprocessed ops initialState r hr rfl hinit
  refine ⟨hdef, hinv.1, ?_⟩
  rw [requestDecryption_ok r c _ hinv.1, hdef]
  rfl

/-- Claim C10 (witness): on a fresh contract, requesting decryption of the
never-issued id 3 succeeds, forwards two uninitialized handles and
registers the correlation `7 ↦ 3`. -/
theorem requestDecryption_nonexistent_id_witness :
    requestDecryption 3 7 (runTrace [] initialState).1 =
      Except.ok
        ({ (runTrace [] initialState).1 with
            requestToId := fun i =>
              if i = 7 then 3 else ((runTrace [] initialState).1).requestToId i },
         [none, none]) :=
  (requestDecryption_nonexistent_id [] 3 7 (Or.inr (by decide)) (Or.inr (by decide))).2.2

/-- Claim C1 (corrected, amended): after any sequence of operations in
which `k` resolutions succeeded with revealed demands `d_1 .. d_k` — each
merged exactly once into the hard-coded target zone `"main_zone"` — the
zone's decrypted running total equals `(d_1 + ⋯ + d_k) % 2 ^ 32`: the
exact sum whenever it fits in 32 bits, its 32-bit wrap-around otherwise. -/
theorem zone_total_is_sum_of_revealed (ops : List Op) :
    decryptTotal (getEncryptedAllocation "main_zone" (runTrace ops initialState).1) =
      ((runTrace ops initialState).2).sum % MOD32 := by
  have h := runTrace_zone_total ops initialState
    (fun a ha => by simp [initialState] at ha)
  simpa [getEncryptedAllocation, initialState, decryptTotal] using h

/-- Trace for the overflow counterexample: two requests, each resolved
with revealed demand `2 ^ 31`. -/
def overflowTrace : List Op :=
  [Op.submit (some 1) (some 1) 0, Op.submit (some 1) (some 1) 0,
   Op.reqDec 1 21, Op.reqDec 2 22,
   Op.resolve 21 (2147483648, 0) true, Op.resolve 22 (2147483648, 0) true]

/-- Claim C1 (counterexample): two requests resolve successfully with
revealed demands `2 ^ 31` each, both targeting `"main_zone"`, yet the
zone's decrypted total is `0` and not the sum `2 ^ 32`: the `euint32`
accumulator wraps modulo `2 ^ 32`. -/
theorem zone_total_overflow :
    (runTrace overflowTrace initialState).2 = [2147483648, 2147483648] ∧
    decryptTotal (getEncryptedAllocation "main_zone" (runTrace overflowTrace initialState).1) = 0 ∧
    (2147483648 + 2147483648 : Nat) ≠ 0 :=
  ⟨rfl, rfl, by decide⟩
